import Mathlib

/-!
Verification of the regression math utilities of the
Teach-Linear-Regression repository (src/src/utils/regressionMath.js).

Shallow embedding conventions:

* JavaScript numbers are modelled by exact rationals ℚ wherever the
  source keeps every intermediate value finite (all divisions in the
  fit, the metrics and the outlier detector are guarded by the source
  itself, so exact arithmetic never leaves ℚ).  Rounding error of
  binary64 arithmetic is not modelled.
* `gradientDescent` and `generateCostSurface` are embedded over
  `JsVal`, a three-way value type (finite rational, signed infinity,
  NaN), because those two functions contain unguarded divisions:
  `2 / n` in gradient descent (zero when the dataset is empty) and
  `(max − min) / resolution` in the cost surface (zero when the
  resolution is 0), each producing Infinity and then NaN downstream;
  that behaviour is essential to the claims about the empty dataset,
  about finiteness of the recorded losses, and about the grid vertex
  values.  `JsVal` arithmetic follows IEEE-754 binary64 semantics on
  the non-finite values (sign of zero is not modelled: the only
  divisions whose denominator can be zero here are by the array length
  and by the resolution, both non-negative integers, hence +0).
* JavaScript `reduce`/`forEach` accumulations become `List.foldl`,
  `map` becomes `List.map`, push-loops over `i = 0 .. resolution`
  become maps over `List.range (resolution+1)`.
* `Math.floor(len * 0.25)` and `Math.floor(len * 0.75)`: 0.25 and 0.75
  are exactly representable and the products are exact for every array
  length a browser can hold, so these are embedded as the natural
  number divisions `len / 4` and `len * 3 / 4`.
* `Math.sqrt` becomes `Real.sqrt` (the non-negative square root).
-/

/-- A data point, as the plain record of two numbers used throughout
the source. -/
structure Point where
  x : ℚ
  y : ℚ
deriving DecidableEq, Repr

/-- One entry of the `predictions` array built by
`calculateLinearRegression`. -/
structure Prediction where
  x : ℚ
  yActual : ℚ
  yPredicted : ℚ
deriving DecidableEq, Repr

/-- The object returned by `calculateLinearRegression`.  The source
returns `meanX`/`meanY` only on the main branch; on the degenerate
branch those fields are absent (undefined), modelled by `Option`. -/
structure RegressionResult where
  slope : ℚ
  intercept : ℚ
  predictions : List Prediction
  meanX : Option ℚ
  meanY : Option ℚ
deriving DecidableEq, Repr

/-- Embedding of `calculateLinearRegression` (regressionMath.js,
lines 12-48): least-squares fit with the degenerate small-dataset and
zero-x-variance branches of the source. -/
def calculateLinearRegression (points : List Point) : RegressionResult :=
  if points.length < 2 then
    { slope := 0, intercept := 0, predictions := [], meanX := none, meanY := none }
  else
    let n : ℚ := points.length
    let sumX := points.foldl (fun acc p => acc + p.x) 0
    let sumY := points.foldl (fun acc p => acc + p.y) 0
    let meanX := sumX / n
    let meanY := sumY / n
    let numer := points.foldl (fun acc p => acc + (p.x - meanX) * (p.y - meanY)) 0
    let denom := points.foldl (fun acc p => acc + (p.x - meanX) ^ 2) 0
    let slope := if denom ≠ 0 then numer / denom else 0
    let intercept := meanY - slope * meanX
    let predictions := points.map (fun p =>
      { x := p.x, yActual := p.y, yPredicted := slope * p.x + intercept })
    { slope := slope, intercept := intercept, predictions := predictions,
      meanX := some meanX, meanY := some meanY }

/-- Embedding of `calculateMSE` (lines 58-67). -/
def calculateMSE (points : List Point) (slope intercept : ℚ) : ℚ :=
  if points.length = 0 then 0
  else
    (points.foldl (fun acc p => acc + (p.y - (slope * p.x + intercept)) ^ 2) 0) /
      (points.length : ℚ)

/-- Embedding of `calculateRMSE` (lines 77-79): `Math.sqrt` of the MSE. -/
noncomputable def calculateRMSE (points : List Point) (slope intercept : ℚ) : ℝ :=
  Real.sqrt (calculateMSE points slope intercept : ℝ)

/-- Embedding of `calculateR2` (lines 109-129). -/
def calculateR2 (points : List Point) (slope intercept : ℚ) : ℚ :=
  if points.length < 2 then 0
  else
    let meanY := (points.foldl (fun acc p => acc + p.y) 0) / (points.length : ℚ)
    let ssRes := points.foldl (fun acc p => acc + (p.y - (slope * p.x + intercept)) ^ 2) 0
    let ssTot := points.foldl (fun acc p => acc + (p.y - meanY) ^ 2) 0
    if ssTot = 0 then 0 else 1 - ssRes / ssTot

/-- One element of the `residuals` array of `detectOutliers`: the
original index together with the absolute residual at that index. -/
structure ResEntry where
  idx : ℕ
  residual : ℚ
deriving DecidableEq, Repr

instance : Inhabited ResEntry := ⟨⟨0, 0⟩⟩

/-- Stable insertion of an entry into a list kept ascending by
residual. -/
def insertEntry (r : ResEntry) : List ResEntry → List ResEntry
  | [] => [r]
  | s :: rest => if s.residual ≤ r.residual then s :: insertEntry r rest
      else r :: s :: rest

/-- Ascending sort by residual, embedding the source's
`sort((a, b) => a.residual - b.residual)`.  The sorted array is only
read through the residual values at two fixed positions, which every
ascending sort of the same entries agrees on, so the choice of sorting
algorithm is observationally irrelevant. -/
def sortEntries : List ResEntry → List ResEntry
  | [] => []
  | r :: rest => insertEntry r (sortEntries rest)

/-- Embedding of `detectOutliers` (lines 276-301).  `Math.floor` of
`length * 0.25` and `length * 0.75` is exact natural division (see the
header comment); the accesses `sorted[q1Index]`/`sorted[q3Index]` are
in bounds because the length is at least 4, so `getD` with a default
is faithful. -/
def detectOutliers (points : List Point) (slope intercept : ℚ) : List ℕ :=
  if points.length < 4 then []
  else
    let residuals := points.enum.map (fun ip =>
      ({ idx := ip.1, residual := |ip.2.y - (slope * ip.2.x + intercept)| } : ResEntry))
    let sorted := sortEntries residuals
    let q1 := (sorted.getD (sorted.length / 4) default).residual
    let q3 := (sorted.getD (sorted.length * 3 / 4) default).residual
    let iqr := q3 - q1
    let threshold := q3 + 3 / 2 * iqr
    (residuals.filter (fun r => decide (threshold < r.residual))).map (fun r => r.idx)

/-- Embedding of `normalEquation` (lines 220-223): the source returns
`calculateLinearRegression(points)` directly. -/
def normalEquation (points : List Point) : RegressionResult :=
  calculateLinearRegression points

/-- An IEEE-754-style JavaScript number value: a finite value (exact
rational), a signed infinity (`inf true` is negative infinity), or
NaN.  Needed for `gradientDescent`, whose `2 / n` scaling is unguarded
against `n = 0` in the source. -/
inductive JsVal where
  | num (q : ℚ)
  | inf (neg : Bool)
  | nan
deriving DecidableEq, Repr

instance : Inhabited JsVal := ⟨JsVal.num 0⟩

namespace JsVal

/-- IEEE-754 addition on the extended values (exact on finite ones). -/
def add : JsVal → JsVal → JsVal
  | nan, _ => nan
  | _, nan => nan
  | num a, num b => num (a + b)
  | num _, inf s => inf s
  | inf s, num _ => inf s
  | inf s, inf t => if s = t then inf s else nan

/-- IEEE-754 negation. -/
def neg : JsVal → JsVal
  | num a => num (-a)
  | inf s => inf (!s)
  | nan => nan

/-- IEEE-754 subtraction, `a - b = a + (-b)`. -/
def sub (a b : JsVal) : JsVal := add a (neg b)

/-- IEEE-754 multiplication: `0 · ∞ = NaN`, signs multiply. -/
def mul : JsVal → JsVal → JsVal
  | nan, _ => nan
  | _, nan => nan
  | num a, num b => num (a * b)
  | num a, inf s => if a = 0 then nan else inf (xor (decide (a < 0)) s)
  | inf s, num b => if b = 0 then nan else inf (xor s (decide (b < 0)))
  | inf s, inf t => inf (xor s t)

/-- IEEE-754 division: a non-zero finite value divided by (positive)
zero is a signed infinity, `0/0 = ∞/∞ = NaN`, finite over infinite is
zero.  The sign of a zero denominator is not modelled (the only zero
denominator reachable in the embedded code is an array length, i.e.
+0). -/
def div : JsVal → JsVal → JsVal
  | nan, _ => nan
  | _, nan => nan
  | num a, num b =>
      if b = 0 then (if a = 0 then nan else inf (decide (a < 0)))
      else num (a / b)
  | num _, inf _ => num 0
  | inf s, num b => inf (xor s (decide (b < 0)))
  | inf _, inf _ => nan

/-- Embedding of `Number.isFinite` (the `isFinite` test) on these values. -/
def isFinite : JsVal → Bool
  | num _ => true
  | _ => false

end JsVal

/-- Spec-side: the arithmetic mean of the x-coordinates. -/
def meanXQ (points : List Point) : ℚ := (points.map (fun p => p.x)).sum / (points.length : ℚ)

/-- Spec-side: the arithmetic mean of the y-coordinates. -/
def meanYQ (points : List Point) : ℚ := (points.map (fun p => p.y)).sum / (points.length : ℚ)

/-- Spec-side: the least-squares numerator Σ (x_i − meanX)(y_i − meanY). -/
def fitNumer (points : List Point) : ℚ :=
  (points.map (fun p => (p.x - meanXQ points) * (p.y - meanYQ points))).sum

/-- Spec-side: the least-squares denominator Σ (x_i − meanX)². -/
def fitDenom (points : List Point) : ℚ :=
  (points.map (fun p => (p.x - meanXQ points) ^ 2)).sum

/-- Spec-side: the residual sum of squares Σ (y_i − (slope·x_i + intercept))². -/
def ssResQ (points : List Point) (slope intercept : ℚ) : ℚ :=
  (points.map (fun p => (p.y - (slope * p.x + intercept)) ^ 2)).sum

/-- Spec-side: the total sum of squares Σ (y_i − meanY)². -/
def ssTotQ (points : List Point) : ℚ :=
  (points.map (fun p => (p.y - meanYQ points) ^ 2)).sum

/-- One record pushed onto `history` by `gradientDescent`
(lines 190-197). -/
structure EpochRecord where
  epoch : ℕ
  slope : JsVal
  intercept : JsVal
  loss : JsVal
  slopeGradient : JsVal
  interceptGradient : JsVal
deriving DecidableEq, Repr

instance : Inhabited EpochRecord :=
  ⟨⟨0, default, default, default, default, default⟩⟩

/-- The object returned by `gradientDescent` (lines 205-210). -/
structure GDResult where
  finalSlope : JsVal
  finalIntercept : JsVal
  history : List EpochRecord
  converged : Bool
deriving DecidableEq, Repr

/-- Embedding of `calculateMSE` at the `JsVal` level, as invoked by
`gradientDescent` on the possibly non-finite current parameters.  Same
source function (lines 58-67) as `calculateMSE`; the two are related
by `calculateMSEVal_num`. -/
def calculateMSEVal (points : List Point) (slope intercept : JsVal) : JsVal :=
  if points.length = 0 then JsVal.num 0
  else
    JsVal.div
      (points.foldl (fun acc p =>
        JsVal.add acc
          (JsVal.mul
            (JsVal.sub (JsVal.num p.y) (JsVal.add (JsVal.mul slope (JsVal.num p.x)) intercept))
            (JsVal.sub (JsVal.num p.y) (JsVal.add (JsVal.mul slope (JsVal.num p.x)) intercept))))
        (JsVal.num 0))
      (JsVal.num (points.length : ℚ))

/-- Embedding of `generateCostSurface` (lines 233-266).  The two
nested push-loops over `0 ≤ i, j ≤ resolution` are written as maps
over `List.range (resolution+1)`.  The step divisions
`(max − min) / resolution` are NOT guarded against `resolution = 0` in
the source, so steps, vertex values and costs are computed at the
`JsVal` level: at `resolution = 0` the step is Infinity (or NaN when
the range is empty) and every vertex value `min + 0·step` is NaN,
exactly as in JavaScript. -/
def generateCostSurface (points : List Point) (slopeRange interceptRange : ℚ × ℚ)
    (resolution : ℕ) :
    List (List JsVal) × List (List JsVal) × List (List JsVal) :=
  let slopeStep := JsVal.div (JsVal.num (slopeRange.2 - slopeRange.1))
    (JsVal.num (resolution : ℚ))
  let interceptStep := JsVal.div (JsVal.num (interceptRange.2 - interceptRange.1))
    (JsVal.num (resolution : ℚ))
  let slopes := (List.range (resolution + 1)).map (fun (i : ℕ) =>
    (List.range (resolution + 1)).map (fun (_ : ℕ) =>
      JsVal.add (JsVal.num slopeRange.1) (JsVal.mul (JsVal.num (i : ℚ)) slopeStep)))
  let intercepts := (List.range (resolution + 1)).map (fun (_ : ℕ) =>
    (List.range (resolution + 1)).map (fun (j : ℕ) =>
      JsVal.add (JsVal.num interceptRange.1) (JsVal.mul (JsVal.num (j : ℚ)) interceptStep)))
  let costs := (List.range (resolution + 1)).map (fun (i : ℕ) =>
    (List.range (resolution + 1)).map (fun (j : ℕ) =>
      calculateMSEVal points
        (JsVal.add (JsVal.num slopeRange.1) (JsVal.mul (JsVal.num (i : ℚ)) slopeStep))
        (JsVal.add (JsVal.num interceptRange.1) (JsVal.mul (JsVal.num (j : ℚ)) interceptStep))))
  (slopes, intercepts, costs)

/-- One iteration of the `for` loop of `gradientDescent`
(lines 168-202) up to the push: gradient accumulation by `forEach`,
the `2/n` scaling, the simultaneous parameter update, and the loss at
the updated parameters.  Returns
(new slope, new intercept, loss, slopeGradient, interceptGradient). -/
def gdStep (points : List Point) (learningRate slope intercept : JsVal) :
    JsVal × JsVal × JsVal × JsVal × JsVal :=
  let acc := points.foldl (fun (acc : JsVal × JsVal) p =>
    let prediction := JsVal.add (JsVal.mul slope (JsVal.num p.x)) intercept
    let error := JsVal.sub prediction (JsVal.num p.y)
    (JsVal.add acc.1 (JsVal.mul error (JsVal.num p.x)), JsVal.add acc.2 error))
    (JsVal.num 0, JsVal.num 0)
  let slopeGradient := JsVal.mul (JsVal.div (JsVal.num 2) (JsVal.num (points.length : ℚ))) acc.1
  let interceptGradient :=
    JsVal.mul (JsVal.div (JsVal.num 2) (JsVal.num (points.length : ℚ))) acc.2
  let slope' := JsVal.sub slope (JsVal.mul learningRate slopeGradient)
  let intercept' := JsVal.sub intercept (JsVal.mul learningRate interceptGradient)
  let mse := calculateMSEVal points slope' intercept'
  (slope', intercept', mse, slopeGradient, interceptGradient)

/-- The `for` loop of `gradientDescent` (lines 168-203): `k` is the
number of iterations still to run, `i` the number of epochs already
executed.  Every executed epoch pushes its record; if its loss is not
finite the loop breaks immediately after the push. -/
def gdRun (points : List Point) (learningRate : JsVal) :
    ℕ → ℕ → JsVal → JsVal → List EpochRecord → JsVal × JsVal × List EpochRecord
  | 0, _, slope, intercept, history => (slope, intercept, history)
  | k + 1, i, slope, intercept, history =>
      let s := gdStep points learningRate slope intercept
      let r : EpochRecord :=
        { epoch := i + 1, slope := s.1, intercept := s.2.1, loss := s.2.2.1,
          slopeGradient := s.2.2.2.1, interceptGradient := s.2.2.2.2 }
      if s.2.2.1.isFinite then
        gdRun points learningRate k (i + 1) s.1 s.2.1 (history ++ [r])
      else (s.1, s.2.1, history ++ [r])

/-- Embedding of `gradientDescent` (lines 156-211).  The source's
default arguments are omitted: every claim quantifies over all of
them.  `converged` is `history.length > 0 && isFinite(history[history.length - 1].loss)`;
the `&&` short-circuits, so the last-element access is modelled by
`getLast?`. -/
def gradientDescent (points : List Point) (learningRate : JsVal) (iterations : ℕ)
    (initialSlope initialIntercept : JsVal) : GDResult :=
  let r := gdRun points learningRate iterations 0 initialSlope initialIntercept []
  { finalSlope := r.1, finalIntercept := r.2.1, history := r.2.2,
    converged := decide (0 < r.2.2.length) &&
      (match r.2.2.getLast? with
       | some e => e.loss.isFinite
       | none => false) }

/-- Spec-side: `slopeGradient = (2/n) · Σ (prediction_j − y_j) · x_j`. -/
def slopeGradQ (points : List Point) (slope intercept : ℚ) : ℚ :=
  2 / (points.length : ℚ) *
    (points.map (fun p => ((slope * p.x + intercept) - p.y) * p.x)).sum

/-- Spec-side: `interceptGradient = (2/n) · Σ (prediction_j − y_j)`. -/
def interceptGradQ (points : List Point) (slope intercept : ℚ) : ℚ :=
  2 / (points.length : ℚ) *
    (points.map (fun p => (slope * p.x + intercept) - p.y)).sum

/-- Spec-side: one simultaneous gradient-descent update of the
(slope, intercept) pair, both gradients taken at the pre-update
parameters. -/
def ratStepQ (points : List Point) (learningRate : ℚ) (mb : ℚ × ℚ) : ℚ × ℚ :=
  (mb.1 - learningRate * slopeGradQ points mb.1 mb.2,
   mb.2 - learningRate * interceptGradQ points mb.1 mb.2)

/-- Spec-side: the exact gradient-descent trajectory, `k` updates of
`ratStepQ` from the initial pair. -/
def gdTrajQ (points : List Point) (learningRate : ℚ) (mb : ℚ × ℚ) : ℕ → ℚ × ℚ
  | 0 => mb
  | k + 1 => ratStepQ points learningRate (gdTrajQ points learningRate mb k)

/-- Spec-side: the EpochRecord that the spec prescribes for the epoch
numbered `k+1` of a run started at `mb`: post-update parameters, the
MSE at them as loss, and the gradients taken at the pre-update
parameters. -/
def specRecordQ (points : List Point) (learningRate : ℚ) (mb : ℚ × ℚ) (k : ℕ) :
    EpochRecord :=
  { epoch := k + 1,
    slope := JsVal.num (gdTrajQ points learningRate mb (k + 1)).1,
    intercept := JsVal.num (gdTrajQ points learningRate mb (k + 1)).2,
    loss := JsVal.num (ssResQ points (gdTrajQ points learningRate mb (k + 1)).1
      (gdTrajQ points learningRate mb (k + 1)).2 / (points.length : ℚ)),
    slopeGradient := JsVal.num (slopeGradQ points (gdTrajQ points learningRate mb k).1
      (gdTrajQ points learningRate mb k).2),
    interceptGradient := JsVal.num (interceptGradQ points (gdTrajQ points learningRate mb k).1
      (gdTrajQ points learningRate mb k).2) }

/-- Spec-side: the list of absolute residuals, in input order. -/
def absResiduals (points : List Point) (slope intercept : ℚ) : List ℚ :=
  points.map (fun p => |p.y - (slope * p.x + intercept)|)

/-- Ascending insertion into a sorted list of rationals. -/
def insertQ (q : ℚ) : List ℚ → List ℚ
  | [] => [q]
  | v :: rest => if v ≤ q then v :: insertQ q rest else q :: v :: rest

/-- Ascending insertion sort on rationals: the spec's
"ascending-sorted absolute residuals". -/
def sortQ : List ℚ → List ℚ
  | [] => []
  | v :: rest => insertQ v (sortQ rest)

/-- Spec-side: the outlier threshold `Q3 + 1.5·(Q3 − Q1)` with `Q1`/`Q3`
the elements of the ascending-sorted absolute residuals at the
nearest-rank positions `floor(0.25·count)` and `floor(0.75·count)`. -/
def specThreshold (points : List Point) (slope intercept : ℚ) : ℚ :=
  let sorted := sortQ (absResiduals points slope intercept)
  let q1 := sorted.getD (points.length / 4) 0
  let q3 := sorted.getD (points.length * 3 / 4) 0
  q3 + 3 / 2 * (q3 - q1)

/-- Spec-side: the indices into the original point order whose absolute
residual strictly exceeds the threshold. -/
def specOutliers (points : List Point) (slope intercept : ℚ) : List ℕ :=
  (List.range points.length).filter
    (fun i => decide (specThreshold points slope intercept <
      (absResiduals points slope intercept).getD i 0))

/-- Helper recursion shared by the two characterisations of the
outlier index list: the indices of the entries of `vals` strictly
above `th`, in order. -/
def idxFilter (th : ℚ) : List ℚ → List ℕ
  | [] => []
  | v :: vs =>
      if th < v then 0 :: (idxFilter th vs).map (fun i => i + 1)
      else (idxFilter th vs).map (fun i => i + 1)

/-! ### Helper lemmas about `JsVal` arithmetic -/

theorem JsVal.num_add_num (a b : ℚ) : JsVal.add (JsVal.num a) (JsVal.num b) = JsVal.num (a + b) := rfl

theorem JsVal.num_mul_num (a b : ℚ) : JsVal.mul (JsVal.num a) (JsVal.num b) = JsVal.num (a * b) := rfl

theorem JsVal.num_sub_num (a b : ℚ) : JsVal.sub (JsVal.num a) (JsVal.num b) = JsVal.num (a - b) := by
  simp [JsVal.sub, JsVal.neg, JsVal.add, sub_eq_add_neg]

theorem JsVal.num_div_num (a b : ℚ) (h : b ≠ 0) :
    JsVal.div (JsVal.num a) (JsVal.num b) = JsVal.num (a / b) := by
  simp [JsVal.div, h]

theorem JsVal.add_nan (a : JsVal) : JsVal.add a JsVal.nan = JsVal.nan := by
  cases a <;> rfl

theorem JsVal.mul_nan (a : JsVal) : JsVal.mul a JsVal.nan = JsVal.nan := by
  cases a <;> rfl

theorem JsVal.sub_nan (a : JsVal) : JsVal.sub a JsVal.nan = JsVal.nan := by
  cases a <;> rfl

theorem JsVal.isFinite_num (q : ℚ) : (JsVal.num q).isFinite = true := rfl

/-! ### Helper lemmas about list folds -/

theorem foldl_add_map {α : Type} (f : α → ℚ) :
    ∀ (l : List α) (a : ℚ), l.foldl (fun acc x => acc + f x) a = a + (l.map f).sum := by
  intro l
  induction l with
  | nil => intro a; simp
  | cons p rest ih => intro a; simp [ih]; ring

/-- The MSE is a mean of squares, hence non-negative. -/
theorem calculateMSE_nonneg (points : List Point) (slope intercept : ℚ) :
    0 ≤ calculateMSE points slope intercept := by
  unfold calculateMSE
  split
  · exact le_refl 0
  · apply div_nonneg
    · rw [foldl_add_map (fun (p : Point) => (p.y - (slope * p.x + intercept)) ^ 2) points 0]
      rw [zero_add]
      apply List.sum_nonneg
      intro x hx
      rcases List.mem_map.1 hx with ⟨p, _, rfl⟩
      positivity
    · exact Nat.cast_nonneg _

/-- C10: `normalEquation` returns exactly the result of
`calculateLinearRegression` on every dataset: in the source the former
is a direct call to the latter, so slope, intercept, predictions and
means always agree. -/
theorem c10_normalEquation_eq_fit (points : List Point) :
    normalEquation points = calculateLinearRegression points := rfl

/-- C7: for every dataset (including the empty one) and every slope and
intercept, `calculateRMSE` is exactly the non-negative square root of
`calculateMSE`; the MSE of the empty dataset is 0, hence so is its
RMSE. -/
theorem c7_rmse_is_sqrt_mse (points : List Point) (slope intercept : ℚ) :
    calculateRMSE points slope intercept =
      Real.sqrt ((calculateMSE points slope intercept : ℚ) : ℝ) ∧
    0 ≤ calculateRMSE points slope intercept ∧
    (calculateRMSE points slope intercept) ^ 2 =
      ((calculateMSE points slope intercept : ℚ) : ℝ) ∧
    calculateMSE [] slope intercept = 0 ∧
    calculateRMSE [] slope intercept = 0 := by
  refine ⟨rfl, Real.sqrt_nonneg _, ?_, rfl, ?_⟩
  · rw [calculateRMSE, Real.sq_sqrt]
    exact_mod_cast calculateMSE_nonneg points slope intercept
  · show Real.sqrt ((calculateMSE [] slope intercept : ℚ) : ℝ) = 0
    norm_num [calculateMSE]

/-- C2: the `converged` flag is true iff at least one epoch was
executed (the history is non-empty) and the loss of the last recorded
epoch is finite.  Divergence is never an error: the run merely stops
early and reports `converged = false`. -/
theorem c2_converged_iff (points : List Point) (learningRate : JsVal) (iterations : ℕ)
    (initialSlope initialIntercept : JsVal) :
    (gradientDescent points learningRate iterations initialSlope initialIntercept).converged
      = true ↔
    (gradientDescent points learningRate iterations initialSlope initialIntercept).history
      ≠ [] ∧
    ∃ e, (gradientDescent points learningRate iterations initialSlope
      initialIntercept).history.getLast? = some e ∧ e.loss.isFinite = true := by
  unfold gradientDescent
  cases hL : (gdRun points learningRate iterations 0 initialSlope initialIntercept []).2.2.getLast? with
  | none =>
    have hnil : (gdRun points learningRate iterations 0 initialSlope initialIntercept []).2.2 = [] :=
      List.getLast?_eq_none_iff.mp hL
    simp [hnil]
  | some e =>
    have hne : (gdRun points learningRate iterations 0 initialSlope initialIntercept []).2.2 ≠ [] := by
      intro h0
      rw [h0] at hL
      simp at hL
    have hlen : 0 < (gdRun points learningRate iterations 0 initialSlope initialIntercept []).2.2.length :=
      List.length_pos.mpr hne
    simp only [hL, hlen, decide_eq_true_eq, Bool.true_and]
    constructor
    · intro hfin
      exact ⟨hne, e, rfl, by simpa using hfin⟩
    · rintro ⟨-, e', he', hfin⟩
      cases he'
      simpa using hfin

/-- Folding addition of `f` over a list starting from 0 is the sum of
the mapped list. -/
theorem foldl_add_map' {α : Type} (f : α → ℚ) (l : List α) :
    l.foldl (fun acc x => acc + f x) 0 = (l.map f).sum := by
  rw [foldl_add_map f l 0, zero_add]

/-- On a dataset of at least two points, the fit returns the
closed-form least-squares coefficients (with the zero-denominator
convention) and the per-point predictions. -/
theorem calculateLinearRegression_eq (points : List Point) (h : 2 ≤ points.length) :
    calculateLinearRegression points =
      { slope := if fitDenom points ≠ 0 then fitNumer points / fitDenom points else 0,
        intercept := meanYQ points -
          (if fitDenom points ≠ 0 then fitNumer points / fitDenom points else 0) *
            meanXQ points,
        predictions := points.map (fun p =>
          { x := p.x, yActual := p.y,
            yPredicted :=
              (if fitDenom points ≠ 0 then fitNumer points / fitDenom points else 0) * p.x +
              (meanYQ points -
                (if fitDenom points ≠ 0 then fitNumer points / fitDenom points else 0) *
                  meanXQ points) }),
        meanX := some (meanXQ points),
        meanY := some (meanYQ points) } := by
  simp only [calculateLinearRegression]
  rw [if_neg (by omega)]
  rw [foldl_add_map' (fun (p : Point) => p.x) points,
    foldl_add_map' (fun (p : Point) => p.y) points]
  rw [foldl_add_map' (fun (p : Point) =>
    (p.x - (points.map (fun p => p.x)).sum / (points.length : ℚ)) *
    (p.y - (points.map (fun p => p.y)).sum / (points.length : ℚ))) points]
  rw [foldl_add_map' (fun (p : Point) =>
    (p.x - (points.map (fun p => p.x)).sum / (points.length : ℚ)) ^ 2) points]
  rfl

/-- C5: on fewer than 2 points the fit returns the degenerate zero
result with no predictions; on 2 or more points it returns the
least-squares slope `Σ(x−meanX)(y−meanY) / Σ(x−meanX)²` (0 when the
denominator is exactly zero), the intercept `meanY − slope·meanX`, and
one prediction `slope·x + intercept` per input point in input order. -/
theorem c5_fit_characterisation (points : List Point) :
    (points.length < 2 → calculateLinearRegression points =
      { slope := 0, intercept := 0, predictions := [], meanX := none, meanY := none }) ∧
    (2 ≤ points.length →
      (fitDenom points ≠ 0 →
        (calculateLinearRegression points).slope = fitNumer points / fitDenom points) ∧
      (fitDenom points = 0 → (calculateLinearRegression points).slope = 0) ∧
      (calculateLinearRegression points).intercept =
        meanYQ points - (calculateLinearRegression points).slope * meanXQ points ∧
      (calculateLinearRegression points).predictions = points.map (fun p =>
        { x := p.x, yActual := p.y,
          yPredicted := (calculateLinearRegression points).slope * p.x +
            (calculateLinearRegression points).intercept })) := by
  constructor
  · intro h
    simp only [calculateLinearRegression]
    rw [if_pos h]
  · intro h
    rw [calculateLinearRegression_eq points h]
    by_cases hd : fitDenom points = 0
    · simp [hd]
    · simp [hd]

/-- Closed instance of `c5_fit_characterisation` with every hypothesis
discharged on the dataset [(1,2), (2,4)], whose x-variance is
non-zero. -/
theorem c5_fit_characterisation_witness :
    2 ≤ ([⟨1, 2⟩, ⟨2, 4⟩] : List Point).length ∧
    fitDenom [⟨1, 2⟩, ⟨2, 4⟩] ≠ 0 ∧
    (calculateLinearRegression [⟨1, 2⟩, ⟨2, 4⟩]).slope =
      fitNumer [⟨1, 2⟩, ⟨2, 4⟩] / fitDenom [⟨1, 2⟩, ⟨2, 4⟩] :=
  ⟨by decide, by norm_num [fitDenom, meanXQ],
    ((c5_fit_characterisation [⟨1, 2⟩, ⟨2, 4⟩]).2 (by decide)).1
      (by norm_num [fitDenom, meanXQ])⟩

/-- On a dataset of at least two points, `calculateR2` computes
`1 − SS_res/SS_tot` with the zero-`SS_tot` guard. -/
theorem calculateR2_eq (points : List Point) (slope intercept : ℚ) (h : 2 ≤ points.length) :
    calculateR2 points slope intercept =
      if ssTotQ points = 0 then 0
      else 1 - ssResQ points slope intercept / ssTotQ points := by
  simp only [calculateR2]
  rw [if_neg (by omega)]
  rw [foldl_add_map' (fun (p : Point) => p.y) points]
  rw [foldl_add_map' (fun (p : Point) => (p.y - (slope * p.x + intercept)) ^ 2) points]
  rw [foldl_add_map' (fun (p : Point) =>
    (p.y - (points.map (fun p => p.y)).sum / (points.length : ℚ)) ^ 2) points]
  rfl

/-- A dataset whose total sum of squares is non-zero has at least two
points. -/
theorem ssTotQ_ne_zero_length (points : List Point) (h : ssTotQ points ≠ 0) :
    2 ≤ points.length := by
  by_contra hlt
  apply h
  rcases points with _ | ⟨p, _ | ⟨q, rest⟩⟩
  · rfl
  · norm_num [ssTotQ, meanYQ]
  · exact absurd (by simp) hlt

/-- C6: `calculateR2` returns `1 − SS_res/SS_tot`, returns exactly 0
when the dataset has fewer than 2 points or `SS_tot = 0`, and returns
exactly 1 when every point lies on the line and y has non-zero
variance. -/
theorem c6_r2_characterisation (points : List Point) (slope intercept : ℚ) :
    (points.length < 2 → calculateR2 points slope intercept = 0) ∧
    (ssTotQ points = 0 → calculateR2 points slope intercept = 0) ∧
    (2 ≤ points.length → ssTotQ points ≠ 0 →
      calculateR2 points slope intercept =
        1 - ssResQ points slope intercept / ssTotQ points) ∧
    ((∀ p ∈ points, p.y = slope * p.x + intercept) → ssTotQ points ≠ 0 →
      calculateR2 points slope intercept = 1) := by
  have hsmall : points.length < 2 → calculateR2 points slope intercept = 0 := by
    intro h
    simp only [calculateR2]
    rw [if_pos h]
  refine ⟨hsmall, ?_, ?_, ?_⟩
  · intro h0
    by_cases hlen : points.length < 2
    · exact hsmall hlen
    · rw [calculateR2_eq points slope intercept (by omega), if_pos h0]
  · intro hlen hne
    rw [calculateR2_eq points slope intercept hlen, if_neg hne]
  · intro hfit hne
    have hlen := ssTotQ_ne_zero_length points hne
    have hres : ssResQ points slope intercept = 0 := by
      apply List.sum_eq_zero
      intro x hx
      rcases List.mem_map.1 hx with ⟨p, hp, rfl⟩
      rw [hfit p hp]
      ring
    rw [calculateR2_eq points slope intercept hlen, if_neg hne, hres]
    simp

/-- Closed instance of `c6_r2_characterisation`: on the perfectly
collinear dataset [(1,2), (2,4)] with the line y = 2x, whose y-variance
is non-zero, R² is exactly 1. -/
theorem c6_r2_characterisation_witness :
    (∀ p ∈ ([⟨1, 2⟩, ⟨2, 4⟩] : List Point), p.y = 2 * p.x + 0) ∧
    ssTotQ [⟨1, 2⟩, ⟨2, 4⟩] ≠ 0 ∧
    calculateR2 [⟨1, 2⟩, ⟨2, 4⟩] 2 0 = 1 :=
  ⟨by intro p hp; fin_cases hp <;> norm_num,
   by norm_num [ssTotQ, meanYQ],
   (c6_r2_characterisation [⟨1, 2⟩, ⟨2, 4⟩] 2 0).2.2.2
     (by intro p hp; fin_cases hp <;> norm_num)
     (by norm_num [ssTotQ, meanYQ])⟩

/-- Indexing a mapped range at an in-bounds position evaluates the
function. -/
theorem getD_map_range {α : Type} (f : ℕ → α) (n i : ℕ) (d : α) (h : i < n) :
    ((List.range n).map f).getD i d = f i := by
  rw [List.getD_eq_getElem?_getD, List.getElem?_map, List.getElem?_range h]
  rfl

/-- Indexing an appended list inside the left part reads the left part. -/
theorem getD_append_left {α : Type} (l t : List α) (i : ℕ) (d : α) (h : i < l.length) :
    (l ++ t).getD i d = l.getD i d := by
  rw [List.getD_eq_getElem?_getD, List.getD_eq_getElem?_getD, List.getElem?_append,
    if_pos h]

/-- An in-bounds `getD` is a member of the list. -/
theorem getD_mem {α : Type} (l : List α) (i : ℕ) (d : α) (h : i < l.length) :
    l.getD i d ∈ l := by
  rw [List.getD_eq_getElem?_getD, List.getElem?_eq_getElem h]
  exact List.getElem_mem h

/-- The loop never appends more records than the remaining iteration
count. -/
theorem gdRun_length_le (points : List Point) (lr : JsVal) :
    ∀ (k i : ℕ) (s b : JsVal) (h : List EpochRecord),
      (gdRun points lr k i s b h).2.2.length ≤ h.length + k := by
  intro k
  induction k with
  | zero =>
    intro i s b h
    simp [gdRun]
  | succ k ih =>
    intro i s b h
    rw [gdRun]
    by_cases hfin : (gdStep points lr s b).2.2.1.isFinite = true
    · rw [if_pos hfin]
      calc (gdRun points lr k (i + 1) (gdStep points lr s b).1 (gdStep points lr s b).2.1
              (h ++ [_])).2.2.length
          ≤ (h ++ [_]).length + k := ih _ _ _ _
        _ = h.length + (k + 1) := by simp; omega
    · rw [if_neg hfin]
      simp

/-- Every record of the accumulator except possibly the last one has a
finite loss, provided the accumulator entered with only finite losses:
the loop recurses only when the loss it just recorded is finite. -/
theorem gdRun_getD_finite (points : List Point) (lr : JsVal) :
    ∀ (k i : ℕ) (s b : JsVal) (h : List EpochRecord),
      (∀ e ∈ h, e.loss.isFinite = true) →
      ∀ j, j + 1 < (gdRun points lr k i s b h).2.2.length →
        ((gdRun points lr k i s b h).2.2.getD j default).loss.isFinite = true := by
  intro k
  induction k with
  | zero =>
    intro i s b h hfin j hj
    simp only [gdRun] at hj ⊢
    exact hfin _ (getD_mem _ _ _ (by omega))
  | succ k ih =>
    intro i s b h hfin j hj
    rw [gdRun] at hj ⊢
    by_cases hstep : (gdStep points lr s b).2.2.1.isFinite = true
    · rw [if_pos hstep] at hj ⊢
      refine ih _ _ _ _ ?_ j hj
      intro e he
      rcases List.mem_append.1 he with he | he
      · exact hfin e he
      · rcases List.mem_singleton.1 he with rfl
        exact hstep
    · rw [if_neg hstep] at hj ⊢
      simp only [List.length_append, List.length_singleton] at hj
      rw [getD_append_left _ _ _ _ (by omega)]
      exact hfin _ (getD_mem _ _ _ (by omega))

/-- C3: the history never exceeds the requested iteration count, and
only the last recorded epoch can carry a non-finite loss — once a
non-finite loss is recorded the loop halts, so every earlier record's
loss is finite. -/
theorem c3_history_length_and_halt (points : List Point) (learningRate : JsVal)
    (iterations : ℕ) (initialSlope initialIntercept : JsVal) :
    (gradientDescent points learningRate iterations initialSlope
      initialIntercept).history.length ≤ iterations ∧
    ∀ j, j + 1 < (gradientDescent points learningRate iterations initialSlope
        initialIntercept).history.length →
      ((gradientDescent points learningRate iterations initialSlope
        initialIntercept).history.getD j default).loss.isFinite = true := by
  constructor
  · simpa using gdRun_length_le points learningRate iterations 0 initialSlope
      initialIntercept []
  · intro j hj
    exact gdRun_getD_finite points learningRate iterations 0 initialSlope
      initialIntercept [] (by simp) j hj

/-- Closed instance of `c3_history_length_and_halt` on a concrete
two-epoch run: the length bound holds and the first record's loss is
finite. -/
theorem c3_history_length_and_halt_witness :
    (gradientDescent [⟨0, 0⟩, ⟨1, 1⟩] (JsVal.num (1 / 10)) 2 (JsVal.num 0)
      (JsVal.num 0)).history.length ≤ 2 ∧
    0 + 1 < (gradientDescent [⟨0, 0⟩, ⟨1, 1⟩] (JsVal.num (1 / 10)) 2 (JsVal.num 0)
      (JsVal.num 0)).history.length ∧
    ((gradientDescent [⟨0, 0⟩, ⟨1, 1⟩] (JsVal.num (1 / 10)) 2 (JsVal.num 0)
      (JsVal.num 0)).history.getD 0 default).loss.isFinite = true :=
  ⟨(c3_history_length_and_halt [⟨0, 0⟩, ⟨1, 1⟩] (JsVal.num (1 / 10)) 2 (JsVal.num 0)
      (JsVal.num 0)).1,
   by decide,
   (c3_history_length_and_halt [⟨0, 0⟩, ⟨1, 1⟩] (JsVal.num (1 / 10)) 2 (JsVal.num 0)
      (JsVal.num 0)).2 0 (by decide)⟩

/-- On the empty dataset one loop iteration makes both parameters NaN,
whatever they and the learning rate were: the `2 / n` scaling divides
by zero, `Infinity · 0 = NaN`, and NaN then propagates through the
update; the loss stays 0 because the MSE of the empty dataset is 0. -/
theorem gdStep_nil (lr s b : JsVal) :
    gdStep [] lr s b = (JsVal.nan, JsVal.nan, JsVal.num 0, JsVal.nan, JsVal.nan) := by
  cases lr <;> cases s <;> cases b <;> rfl

/-- On the empty dataset, running at least one iteration leaves both
final parameters NaN. -/
theorem gdRun_nil_params (lr : JsVal) :
    ∀ (k i : ℕ) (s b : JsVal) (h : List EpochRecord), 1 ≤ k →
      (gdRun [] lr k i s b h).1 = JsVal.nan ∧ (gdRun [] lr k i s b h).2.1 = JsVal.nan := by
  intro k
  induction k with
  | zero =>
    intro i s b h hk
    omega
  | succ k ih =>
    intro i s b h hk
    rw [gdRun, gdStep_nil]
    simp only [JsVal.isFinite, if_true]
    cases k with
    | zero => simp [gdRun]
    | succ k' => exact ih (i + 1) JsVal.nan JsVal.nan _ (by omega)

/-- C1 counterexample: on the empty dataset with one iteration and
initial parameters 0, the source's claimed guard does not exist —
`finalSlope` comes back NaN, not the initial value.  The spec's claim
that the initial parameters are returned is therefore false on the
code. -/
theorem c1_counterexample_empty_dataset :
    (gradientDescent [] (JsVal.num 1) 1 (JsVal.num 0) (JsVal.num 0)).finalSlope
      = JsVal.nan ∧
    (gradientDescent [] (JsVal.num 1) 1 (JsVal.num 0) (JsVal.num 0)).finalSlope
      ≠ JsVal.num 0 :=
  ⟨by rfl, by decide⟩

/-- C1 amended: with `iterations = 0` the parameters are returned
unchanged (for every dataset); but on the empty dataset with at least
one iteration there is no `n = 0` guard — the `2/n` division by zero
drives both gradients to NaN and both final parameters come back NaN
instead of the initial values (no exception is raised). -/
theorem c1_zero_iterations_and_empty_dataset :
    (∀ (points : List Point) (learningRate initialSlope initialIntercept : JsVal),
      (gradientDescent points learningRate 0 initialSlope initialIntercept).finalSlope
        = initialSlope ∧
      (gradientDescent points learningRate 0 initialSlope initialIntercept).finalIntercept
        = initialIntercept) ∧
    (∀ (learningRate initialSlope initialIntercept : JsVal) (iterations : ℕ),
      1 ≤ iterations →
      (gradientDescent [] learningRate iterations initialSlope initialIntercept).finalSlope
        = JsVal.nan ∧
      (gradientDescent [] learningRate iterations initialSlope
        initialIntercept).finalIntercept = JsVal.nan) := by
  constructor
  · intro points learningRate initialSlope initialIntercept
    exact ⟨rfl, rfl⟩
  · intro learningRate initialSlope initialIntercept iterations hit
    exact gdRun_nil_params learningRate iterations 0 initialSlope initialIntercept [] hit

/-- Closed instance of `c1_zero_iterations_and_empty_dataset`: three
iterations on the empty dataset from parameters (3, 4) end at NaN. -/
theorem c1_zero_iterations_and_empty_dataset_witness :
    (1 : ℕ) ≤ 3 ∧
    (gradientDescent [] (JsVal.num (1 / 2)) 3 (JsVal.num 3) (JsVal.num 4)).finalSlope
      = JsVal.nan ∧
    (gradientDescent [] (JsVal.num (1 / 2)) 3 (JsVal.num 3) (JsVal.num 4)).finalIntercept
      = JsVal.nan :=
  ⟨by decide,
   (c1_zero_iterations_and_empty_dataset.2 (JsVal.num (1 / 2)) (JsVal.num 3)
     (JsVal.num 4) 3 (by decide)).1,
   (c1_zero_iterations_and_empty_dataset.2 (JsVal.num (1 / 2)) (JsVal.num 3)
     (JsVal.num 4) 3 (by decide)).2⟩

/-- On a non-empty dataset the MSE is the residual sum of squares
divided by the point count. -/
theorem calculateMSE_eq (points : List Point) (slope intercept : ℚ) (hne : points ≠ []) :
    calculateMSE points slope intercept =
      ssResQ points slope intercept / (points.length : ℚ) := by
  rw [calculateMSE, if_neg (fun h0 => hne (List.length_eq_zero.mp h0))]
  rw [foldl_add_map' (fun (p : Point) => (p.y - (slope * p.x + intercept)) ^ 2) points]
  rfl

/-- The gradient-accumulating fold of `gdStep`, on finite parameters,
computes the two error sums exactly. -/
theorem gdStep_acc_num (m b : ℚ) :
    ∀ (pts : List Point) (a c : ℚ),
      List.foldl (fun (acc : JsVal × JsVal) p =>
          (JsVal.add acc.1 (JsVal.mul (JsVal.sub (JsVal.add
             (JsVal.mul (JsVal.num m) (JsVal.num p.x)) (JsVal.num b)) (JsVal.num p.y))
             (JsVal.num p.x)),
           JsVal.add acc.2 (JsVal.sub (JsVal.add
             (JsVal.mul (JsVal.num m) (JsVal.num p.x)) (JsVal.num b)) (JsVal.num p.y))))
        (JsVal.num a, JsVal.num c) pts
      = (JsVal.num (a + (pts.map (fun p => (m * p.x + b - p.y) * p.x)).sum),
         JsVal.num (c + (pts.map (fun p => m * p.x + b - p.y)).sum)) := by
  intro pts
  induction pts with
  | nil =>
    intro a c
    simp
  | cons p rest ih =>
    intro a c
    rw [List.foldl_cons]
    refine Eq.trans (ih _ _) ?_
    simp only [List.map_cons, List.sum_cons, Prod.mk.injEq, JsVal.num.injEq]
    constructor <;> ring

/-- The squared-error fold of `calculateMSEVal`, on finite parameters,
computes the rational sum of squares. -/
theorem mseVal_fold_num (m b : ℚ) :
    ∀ (pts : List Point) (a : ℚ),
      List.foldl (fun acc p =>
          JsVal.add acc
            (JsVal.mul
              (JsVal.sub (JsVal.num p.y) (JsVal.add
                (JsVal.mul (JsVal.num m) (JsVal.num p.x)) (JsVal.num b)))
              (JsVal.sub (JsVal.num p.y) (JsVal.add
                (JsVal.mul (JsVal.num m) (JsVal.num p.x)) (JsVal.num b)))))
        (JsVal.num a) pts
      = JsVal.num (a + (pts.map (fun p => (p.y - (m * p.x + b)) ^ 2)).sum) := by
  intro pts
  induction pts with
  | nil =>
    intro a
    simp
  | cons p rest ih =>
    intro a
    rw [List.foldl_cons]
    refine Eq.trans (ih _) ?_
    simp only [List.map_cons, List.sum_cons, JsVal.num.injEq]
    ring

/-- The value-level `calculateMSEVal` agrees with the rational `calculateMSE` on finite
parameters. -/
theorem calculateMSEVal_num (pts : List Point) (m b : ℚ) :
    calculateMSEVal pts (JsVal.num m) (JsVal.num b) = JsVal.num (calculateMSE pts m b) := by
  by_cases h : pts.length = 0
  · rw [calculateMSEVal, calculateMSE, if_pos h, if_pos h]
  · rw [calculateMSEVal, calculateMSE, if_neg h, if_neg h]
    rw [mseVal_fold_num m b pts 0]
    rw [JsVal.num_div_num _ _ (by exact_mod_cast h)]
    rw [foldl_add_map' (fun (p : Point) => (p.y - (m * p.x + b)) ^ 2) pts, zero_add]

/-- C8 counterexample: at `resolution = 0` the step division is
unguarded, so the single vertex of the 1×1 grid holds NaN — a
non-finite value, in particular not the claimed
`slopeRange.1 + 0·(slopeRange.2 − slopeRange.1)/0` under any reading
of that expression. -/
theorem c8_counterexample_zero_resolution :
    ((generateCostSurface [⟨0, 0⟩] (0, 1) (0, 1) 0).1.getD 0 []).getD 0 (JsVal.num 0)
      = JsVal.nan ∧
    (((generateCostSurface [⟨0, 0⟩] (0, 1) (0, 1) 0).1.getD 0 []).getD 0
      (JsVal.num 0)).isFinite = false ∧
    ((generateCostSurface [⟨0, 0⟩] (0, 1) (0, 1) 0).1.getD 0 []).getD 0 (JsVal.num 0)
      ≠ JsVal.num (0 + (0 : ℚ) * ((1 - 0) / (0 : ℚ))) :=
  ⟨by norm_num [generateCostSurface, JsVal.div, JsVal.mul, JsVal.add, List.range_succ],
   by norm_num [generateCostSurface, JsVal.div, JsVal.mul, JsVal.add, List.range_succ,
     JsVal.isFinite],
   by
     norm_num [generateCostSurface, JsVal.div, JsVal.mul, JsVal.add, List.range_succ]
     decide⟩

/-- C8 amended: `generateCostSurface` always returns three parallel
`(resolution+1) × (resolution+1)` grids, and for every POSITIVE
resolution vertex `(i,j)` holds the finite values
`slope = slopeRange.1 + i·(slopeRange.2 − slopeRange.1)/resolution`,
`intercept = interceptRange.1 + j·(interceptRange.2 − interceptRange.1)/resolution`,
and the cost `calculateMSE` of the dataset at exactly that vertex's
slope and intercept; at `resolution = 0` the unguarded step division
makes the vertex values NaN instead (see the counterexample). -/
theorem c8_cost_surface_grid (points : List Point) (slopeRange interceptRange : ℚ × ℚ)
    (resolution : ℕ) :
    (generateCostSurface points slopeRange interceptRange resolution).1.length
      = resolution + 1 ∧
    (generateCostSurface points slopeRange interceptRange resolution).2.1.length
      = resolution + 1 ∧
    (generateCostSurface points slopeRange interceptRange resolution).2.2.length
      = resolution + 1 ∧
    (∀ i, i < resolution + 1 →
      ((generateCostSurface points slopeRange interceptRange resolution).1.getD i []).length
        = resolution + 1 ∧
      ((generateCostSurface points slopeRange interceptRange resolution).2.1.getD i []).length
        = resolution + 1 ∧
      ((generateCostSurface points slopeRange interceptRange resolution).2.2.getD i []).length
        = resolution + 1 ∧
      (∀ j, j < resolution + 1 → 1 ≤ resolution →
        (((generateCostSurface points slopeRange interceptRange resolution).1.getD i []).getD
            j (JsVal.num 0)
          = JsVal.num (slopeRange.1
              + (i : ℚ) * ((slopeRange.2 - slopeRange.1) / (resolution : ℚ)))) ∧
        (((generateCostSurface points slopeRange interceptRange resolution).2.1.getD i []).getD
            j (JsVal.num 0)
          = JsVal.num (interceptRange.1
              + (j : ℚ) * ((interceptRange.2 - interceptRange.1) / (resolution : ℚ)))) ∧
        (((generateCostSurface points slopeRange interceptRange resolution).2.2.getD i []).getD
            j (JsVal.num 0)
          = JsVal.num (calculateMSE points
              (slopeRange.1 + (i : ℚ) * ((slopeRange.2 - slopeRange.1) / (resolution : ℚ)))
              (interceptRange.1
                + (j : ℚ) * ((interceptRange.2 - interceptRange.1) / (resolution : ℚ))))))) := by
  simp only [generateCostSurface]
  refine ⟨by simp, by simp, by simp, ?_⟩
  intro i hi
  rw [getD_map_range _ _ _ _ hi, getD_map_range _ _ _ _ hi, getD_map_range _ _ _ _ hi]
  refine ⟨by simp, by simp, by simp, ?_⟩
  intro j hj hres
  rw [getD_map_range _ _ _ _ hj, getD_map_range _ _ _ _ hj, getD_map_range _ _ _ _ hj]
  have hn : ((resolution : ℚ)) ≠ 0 := Nat.cast_ne_zero.mpr (by omega)
  rw [JsVal.num_div_num _ _ hn, JsVal.num_div_num _ _ hn]
  simp only [JsVal.num_mul_num, JsVal.num_add_num, calculateMSEVal_num]
  exact ⟨trivial, trivial, trivial⟩

/-- Closed instance of `c8_cost_surface_grid`: on a concrete 2×2
surface (resolution 1), the cost entry (0,1) is the MSE at the vertex
formulas for (0,1). -/
theorem c8_cost_surface_grid_witness :
    (0 : ℕ) < 1 + 1 ∧ (1 : ℕ) < 1 + 1 ∧ (1 : ℕ) ≤ 1 ∧
    ((generateCostSurface [⟨0, 0⟩] (0, 1) (0, 1) 1).2.2.getD 0 []).getD 1 (JsVal.num 0)
      = JsVal.num (calculateMSE [⟨0, 0⟩]
          (0 + ((0 : ℕ) : ℚ) * ((1 - 0) / ((1 : ℕ) : ℚ)))
          (0 + ((1 : ℕ) : ℚ) * ((1 - 0) / ((1 : ℕ) : ℚ)))) :=
  ⟨by decide, by decide, by decide,
    (((c8_cost_surface_grid [⟨0, 0⟩] (0, 1) (0, 1) 1).2.2.2 0 (by decide)).2.2.2 1
      (by decide) (by decide)).2.2⟩

/-- One loop iteration of `gradientDescent` on a non-empty dataset and
finite parameters computes exactly the spec's gradients
`(2/n)·Σ(prediction − y)·x` and `(2/n)·Σ(prediction − y)` at the
pre-update parameters, the simultaneous update, and the MSE at the
post-update parameters. -/
theorem gdStep_num (pts : List Point) (hne : pts ≠ []) (lr m b : ℚ) :
    gdStep pts (JsVal.num lr) (JsVal.num m) (JsVal.num b) =
      (JsVal.num (m - lr * slopeGradQ pts m b),
       JsVal.num (b - lr * interceptGradQ pts m b),
       JsVal.num (calculateMSE pts (m - lr * slopeGradQ pts m b)
         (b - lr * interceptGradQ pts m b)),
       JsVal.num (slopeGradQ pts m b),
       JsVal.num (interceptGradQ pts m b)) := by
  have hn : ((pts.length : ℚ)) ≠ 0 := by
    exact_mod_cast fun h0 => hne (List.length_eq_zero.mp h0)
  simp only [gdStep]
  rw [gdStep_acc_num m b pts 0 0]
  rw [JsVal.num_div_num 2 _ hn]
  simp only [JsVal.num_mul_num, JsVal.num_sub_num, calculateMSEVal_num]
  simp only [slopeGradQ, interceptGradQ, zero_add]

/-- Shifting the start of the exact trajectory by one step advances
every index by one. -/
theorem gdTrajQ_shift (pts : List Point) (lr : ℚ) (mb : ℚ × ℚ) :
    ∀ k, gdTrajQ pts lr (ratStepQ pts lr mb) k = gdTrajQ pts lr mb (k + 1) := by
  intro k
  induction k with
  | zero => rfl
  | succ k ih =>
    show ratStepQ pts lr (gdTrajQ pts lr (ratStepQ pts lr mb) k) = _
    rw [ih]
    rfl

/-- The gradient-descent loop on a non-empty dataset with finite
learning rate and parameters follows the exact rational trajectory and
records one spec-conforming epoch record per executed epoch. -/
theorem gdRun_num (pts : List Point) (hne : pts ≠ []) (lr : ℚ) :
    ∀ (k i : ℕ) (m b : ℚ) (h : List EpochRecord),
      gdRun pts (JsVal.num lr) k i (JsVal.num m) (JsVal.num b) h =
        (JsVal.num (gdTrajQ pts lr (m, b) k).1,
         JsVal.num (gdTrajQ pts lr (m, b) k).2,
         h ++ (List.range k).map (fun j =>
           { specRecordQ pts lr (m, b) j with epoch := i + j + 1 })) := by
  intro k
  induction k with
  | zero =>
    intro i m b h
    simp [gdRun, gdTrajQ]
  | succ k ih =>
    intro i m b h
    rw [gdRun]
    simp only [gdStep_num pts hne lr m b]
    simp only [JsVal.isFinite, eq_self_iff_true, if_true]
    rw [ih]
    rw [show (m - lr * slopeGradQ pts m b, b - lr * interceptGradQ pts m b)
      = ratStepQ pts lr (m, b) from rfl]
    rw [List.append_assoc, gdTrajQ_shift]
    rw [List.range_succ_eq_map, List.map_cons, List.map_map, List.singleton_append]
    simp only [Prod.mk.injEq]
    refine ⟨trivial, trivial, congrArg (fun t => h ++ t) ?_⟩
    congr 1
    · simp [specRecordQ, gdTrajQ, ratStepQ, calculateMSE_eq pts _ _ hne]
    · apply List.map_congr_left
      intro j hj
      simp only [Function.comp_apply, specRecordQ, gdTrajQ_shift]
      congr 1
      omega

/-- C4: on a non-empty dataset with finite learning rate and initial
parameters, the recorded history is exactly one record per epoch,
numbered from 1, holding the post-update parameters of the exact
trajectory (simultaneous update with both gradients
`(2/n)·Σ(prediction − y)·x` and `(2/n)·Σ(prediction − y)` taken at the
pre-update parameters), the mean squared error at the post-update
parameters as loss, and the two gradient values. -/
theorem c4_epoch_semantics (points : List Point) (lr m0 b0 : ℚ) (iterations : ℕ)
    (hne : points ≠ []) :
    (gradientDescent points (JsVal.num lr) iterations (JsVal.num m0)
      (JsVal.num b0)).history =
      (List.range iterations).map (specRecordQ points lr (m0, b0)) := by
  have hmain := gdRun_num points hne lr iterations 0 m0 b0 []
  have hhist : (gradientDescent points (JsVal.num lr) iterations (JsVal.num m0)
      (JsVal.num b0)).history
      = (gdRun points (JsVal.num lr) iterations 0 (JsVal.num m0) (JsVal.num b0) []).2.2 := rfl
  rw [hhist, hmain]
  simp only [List.nil_append]
  apply List.map_congr_left
  intro j hj
  simp [specRecordQ]

/-- Closed instance of `c4_epoch_semantics` on a concrete non-empty
dataset and a one-epoch run. -/
theorem c4_epoch_semantics_witness :
    ([⟨1, 2⟩, ⟨2, 4⟩] : List Point) ≠ [] ∧
    (gradientDescent [⟨1, 2⟩, ⟨2, 4⟩] (JsVal.num (1 / 10)) 1 (JsVal.num 0)
      (JsVal.num 0)).history
      = (List.range 1).map (specRecordQ [⟨1, 2⟩, ⟨2, 4⟩] (1 / 10) (0, 0)) :=
  ⟨by decide, c4_epoch_semantics [⟨1, 2⟩, ⟨2, 4⟩] (1 / 10) 0 0 1 (by decide)⟩

/-- Projecting the residual out of an insertion commutes with
value-level insertion: the comparisons agree. -/
theorem insertEntry_map (r : ResEntry) :
    ∀ (l : List ResEntry),
      (insertEntry r l).map (fun e => e.residual)
        = insertQ r.residual (l.map (fun e => e.residual)) := by
  intro l
  induction l with
  | nil => rfl
  | cons s rest ih =>
    by_cases hc : s.residual ≤ r.residual
    · simp [insertEntry, insertQ, hc, ih]
    · simp [insertEntry, insertQ, hc]

/-- Projecting the residuals out of the entry sort gives the
value-level sort of the projected residuals. -/
theorem sortEntries_map :
    ∀ (l : List ResEntry),
      (sortEntries l).map (fun e => e.residual) = sortQ (l.map (fun e => e.residual)) := by
  intro l
  induction l with
  | nil => rfl
  | cons r rest ih => simp [sortEntries, sortQ, insertEntry_map, ih]

/-- Insertion grows the length by one. -/
theorem insertEntry_length (r : ResEntry) :
    ∀ (l : List ResEntry), (insertEntry r l).length = l.length + 1 := by
  intro l
  induction l with
  | nil => rfl
  | cons s rest ih =>
    by_cases hc : s.residual ≤ r.residual
    · simp [insertEntry, hc, ih]
    · simp [insertEntry, hc]

/-- Sorting preserves the length. -/
theorem sortEntries_length :
    ∀ (l : List ResEntry), (sortEntries l).length = l.length := by
  intro l
  induction l with
  | nil => rfl
  | cons r rest ih => simp [sortEntries, insertEntry_length, ih]

/-- Reading a mapped list with `getD` maps the read of the original, when the default is mapped too. -/
theorem getD_map {α β : Type} (f : α → β) :
    ∀ (l : List α) (i : ℕ) (d : α), (l.map f).getD i (f d) = f (l.getD i d) := by
  intro l
  induction l with
  | nil => intro i d; rfl
  | cons a rest ih =>
    intro i d
    cases i with
    | zero => rfl
    | succ i => exact ih i d

/-- The code's index extraction (enumerate, filter by residual, project
the index) computes `idxFilter` shifted by the enumeration start. -/
theorem enumFrom_filter_idx (slope intercept th : ℚ) :
    ∀ (pts : List Point) (n : ℕ),
      (((List.enumFrom n pts).map (fun ip =>
          ({ idx := ip.1, residual := |ip.2.y - (slope * ip.2.x + intercept)| } : ResEntry))).filter
        (fun r => decide (th < r.residual))).map (fun r => r.idx)
      = (idxFilter th (pts.map (fun p => |p.y - (slope * p.x + intercept)|))).map
          (fun i => i + n) := by
  intro pts
  induction pts with
  | nil =>
    intro n
    rfl
  | cons p rest ih =>
    intro n
    rw [List.enumFrom_cons, List.map_cons, List.filter_cons, List.map_cons, idxFilter]
    by_cases hc : th < |p.y - (slope * p.x + intercept)|
    · rw [if_pos (by simpa using hc), if_pos hc]
      rw [List.map_cons, ih (n + 1), List.map_cons, List.map_map]
      simp only [List.cons.injEq]
      refine ⟨by simp, ?_⟩
      apply List.map_congr_left
      intro j hj
      simp
      omega
    · rw [if_neg (by simpa using hc), if_neg hc]
      rw [ih (n + 1), List.map_map]
      apply List.map_congr_left
      intro j hj
      simp
      omega

/-- The spec's index set (filter the range of positions by the residual
at that position) also computes `idxFilter`. -/
theorem range_filter_idx (th : ℚ) :
    ∀ (vals : List ℚ),
      (List.range vals.length).filter (fun i => decide (th < vals.getD i 0))
        = idxFilter th vals := by
  intro vals
  induction vals with
  | nil => rfl
  | cons v rest ih =>
    rw [List.length_cons, List.range_succ_eq_map, List.filter_cons, List.filter_map,
      idxFilter]
    have hcomp : ((fun i => decide (th < (v :: rest).getD i 0)) ∘ Nat.succ)
        = fun i => decide (th < rest.getD i 0) := rfl
    rw [hcomp, ih]
    by_cases hc : th < v
    · rw [if_pos (by simpa using hc), if_pos hc]
    · rw [if_neg (by simpa using hc), if_neg hc]

/-- C9: with fewer than 4 points the outlier detector returns the
empty set; with 4 or more it returns exactly the original-order
indices whose absolute residual strictly exceeds
`Q3 + 1.5·(Q3 − Q1)`, with `Q1`/`Q3` read off the ascending-sorted
absolute residuals at the nearest-rank positions `floor(0.25·count)`
and `floor(0.75·count)`. -/
theorem c9_outlier_detection (points : List Point) (slope intercept : ℚ) :
    (points.length < 4 → detectOutliers points slope intercept = []) ∧
    (4 ≤ points.length →
      detectOutliers points slope intercept = specOutliers points slope intercept) := by
  constructor
  · intro h
    rw [detectOutliers, if_pos h]
  · intro h
    rw [detectOutliers, if_neg (by omega)]
    dsimp only
    have hmapres : (points.enum.map (fun ip =>
        ({ idx := ip.1, residual := |ip.2.y - (slope * ip.2.x + intercept)| } : ResEntry))).map
          (fun e => e.residual)
        = absResiduals points slope intercept := by
      rw [List.map_map]
      rw [show ((fun e : ResEntry => e.residual) ∘ (fun ip : ℕ × Point =>
          ({ idx := ip.1, residual := |ip.2.y - (slope * ip.2.x + intercept)| } : ResEntry)))
          = (fun p => |p.y - (slope * p.x + intercept)|) ∘ Prod.snd from rfl]
      rw [← List.map_map, List.enum_map_snd]
      rfl
    have hlen : (sortEntries (points.enum.map (fun ip =>
        ({ idx := ip.1, residual := |ip.2.y - (slope * ip.2.x + intercept)| } : ResEntry)))).length
        = points.length := by
      rw [sortEntries_length]
      simp
    have hq : ∀ k, ((sortEntries (points.enum.map (fun ip =>
        ({ idx := ip.1, residual := |ip.2.y - (slope * ip.2.x + intercept)| } : ResEntry)))).getD
          k default).residual
        = (sortQ (absResiduals points slope intercept)).getD k 0 := by
      intro k
      rw [← getD_map (fun e : ResEntry => e.residual) _ k default]
      rw [sortEntries_map, hmapres]
      rfl
    rw [hlen, hq (points.length / 4), hq (points.length * 3 / 4)]
    rw [← show specThreshold points slope intercept
        = (sortQ (absResiduals points slope intercept)).getD (points.length * 3 / 4) 0
          + 3 / 2 * ((sortQ (absResiduals points slope intercept)).getD
              (points.length * 3 / 4) 0
            - (sortQ (absResiduals points slope intercept)).getD (points.length / 4) 0)
        from rfl]
    rw [List.enum_eq_enumFrom, enumFrom_filter_idx slope intercept
      (specThreshold points slope intercept) points 0]
    rw [specOutliers]
    rw [← show (absResiduals points slope intercept).length = points.length
        from by simp [absResiduals]]
    rw [range_filter_idx (specThreshold points slope intercept)
      (absResiduals points slope intercept)]
    rw [show points.map (fun p => |p.y - (slope * p.x + intercept)|)
        = absResiduals points slope intercept from rfl]
    simp

/-- Closed instance of `c9_outlier_detection` on a concrete dataset of
four points. -/
theorem c9_outlier_detection_witness :
    4 ≤ ([⟨0, 0⟩, ⟨1, 1⟩, ⟨2, 2⟩, ⟨3, 50⟩] : List Point).length ∧
    detectOutliers [⟨0, 0⟩, ⟨1, 1⟩, ⟨2, 2⟩, ⟨3, 50⟩] 1 0
      = specOutliers [⟨0, 0⟩, ⟨1, 1⟩, ⟨2, 2⟩, ⟨3, 50⟩] 1 0 :=
  ⟨by decide, (c9_outlier_detection [⟨0, 0⟩, ⟨1, 1⟩, ⟨2, 2⟩, ⟨3, 50⟩] 1 0).2 (by decide)⟩
